import Mathlib

/-!
Verification of the Contract_Generation repository's core algorithms:
the markdown-fence response sanitizer (`strip_markdown_json`), the
placeholder substitution engine (`generate_filled_contract` and the
styled/interactive variants), and the multi-document comparison pipeline
(`compare_contracts_with_llm` post-processing, text truncation, report
rendering and the extraction phase of `compare_contracts`).

Strings are modelled as `List Char`; Python string primitives
(`strip`, `replace`, `lower`, slicing) are embedded below.
-/

/-- Python `str.isspace` for the characters `str.strip()` removes:
ASCII whitespace, the ASCII separator controls, and the Unicode
space characters. -/
def pyIsSpace (c : Char) : Bool :=
  c = ' ' || c = '\t' || c = '\n' || c = '\x0b' || c = '\x0c' || c = '\r' ||
  c = '\x1c' || c = '\x1d' || c = '\x1e' || c = '\x1f' ||
  c = '\x85' || c = '\xa0' || c = '\u1680' ||
  (('\u2000' ≤ c) && (c ≤ '\u200a')) ||
  c = '\u2028' || c = '\u2029' || c = '\u202f' || c = '\u205f' || c = '\u3000'

def pyStrip (l : List Char) : List Char :=
  ((l.dropWhile pyIsSpace).reverse.dropWhile pyIsSpace).reverse

/-- Python `s.lower()` (ASCII model, all source sentinels are ASCII). -/
def pyLower (s : String) : String := String.mk (s.data.map Char.toLower)

/-- Python `d.get(k)` on a dict represented as an association list
(keys unique, insertion order preserved). -/
def dictGet {β : Type} (k : String) : List (String × β) → Option β
  | [] => none
  | (k', v) :: rest => if k' = k then some v else dictGet k rest

/-- Worker for Python `s.replace(pat, rep)` with a non-empty pattern:
scan left to right, replacing non-overlapping occurrences.  The fuel
argument is `s.length + 1` at the top call, which is enough because
every step consumes at least one character of `s`. -/
def replaceGo (pat rep : List Char) : Nat → List Char → List Char
  | _, [] => []
  | 0, s => s
  | fuel + 1, c :: rest =>
      if pat.isPrefixOf (c :: rest) then
        rep ++ replaceGo pat rep fuel ((c :: rest).drop pat.length)
      else
        c :: replaceGo pat rep fuel rest

/-- Python `s.replace(pat, rep)` (all occurrences, left to right,
non-overlapping; an empty pattern interleaves `rep` between characters). -/
def pyReplace (s pat rep : List Char) : List Char :=
  if pat.isEmpty then rep ++ s.flatMap (fun c => c :: rep)
  else replaceGo pat rep (s.length + 1) s

/-- The line-break normalization performed by `strip_markdown_json`:
`str(x).replace('\r\n', '\n').replace('\r', '\n')`. -/
def pyNorm (l : List Char) : List Char :=
  pyReplace (pyReplace l "\r\n".data "\n".data) "\r".data "\n".data

/-- Python `pat in s` (substring containment). -/
def occursIn (pat : List Char) : List Char → Bool
  | [] => pat.isEmpty
  | c :: rest => pat.isPrefixOf (c :: rest) || occursIn pat rest

/-- Python slice `l[:-n]` (drop the last `n` characters, clamped). -/
def dropEnd (n : Nat) (l : List Char) : List Char := l.take (l.length - n)

/-- The fence-handling body of `strip_markdown_json`, applied to the
normalized and stripped text. -/
def strip_fences (text : List Char) : List Char :=
  if "```json\n".data.isPrefixOf text && "\n```".data.isSuffixOf text then
    pyStrip (dropEnd 4 (text.drop 7))
  else if "```json".data.isPrefixOf text && "```".data.isSuffixOf text then
    pyStrip (dropEnd 3 (text.drop 7))
  else if "```\n".data.isPrefixOf text && "\n```".data.isSuffixOf text then
    pyStrip (dropEnd 4 (text.drop 4))
  else if "```".data.isPrefixOf text && "```".data.isSuffixOf text then
    pyStrip (dropEnd 3 (text.drop 3))
  else
    pyStrip
      (if "```json\n".data.isPrefixOf text then text.drop 7
       else if "```json".data.isPrefixOf text then text.drop 7
       else if "```\n".data.isPrefixOf text then text.drop 4
       else if "```".data.isPrefixOf text then text.drop 3
       else text)

/-- `strip_markdown_json` from `Contract_generation.py` (identical copy in
`contract_generation_enhanced.py`): remove Markdown code fences around a
model response.  `none` models the Python `None` input. -/
def strip_markdown_json (json_string : Option (List Char)) : List Char :=
  match json_string with
  | none => []
  | some s => strip_fences (pyStrip (pyNorm s))

/-- The fence handling as §4.1 of the spec words it: check complete
begins-and-ends fence pairs from most specific to least specific,
stripping exactly the enclosing pair and trimming; when no complete pair
matches, strip only a matching opening fence prefix (same specificity
order) and return the trimmed remainder. -/
def spec_fences (text : List Char) : List Char :=
  if "```json\n".data.isPrefixOf text && "\n```".data.isSuffixOf text then
    pyStrip (dropEnd 4 (text.drop 8))
  else if "```json".data.isPrefixOf text && "```".data.isSuffixOf text then
    pyStrip (dropEnd 3 (text.drop 7))
  else if "```\n".data.isPrefixOf text && "\n```".data.isSuffixOf text then
    pyStrip (dropEnd 4 (text.drop 4))
  else if "```".data.isPrefixOf text && "```".data.isSuffixOf text then
    pyStrip (dropEnd 3 (text.drop 3))
  else if "```json\n".data.isPrefixOf text then pyStrip (text.drop 8)
  else if "```json".data.isPrefixOf text then pyStrip (text.drop 7)
  else if "```\n".data.isPrefixOf text then pyStrip (text.drop 4)
  else if "```".data.isPrefixOf text then pyStrip (text.drop 3)
  else pyStrip text

/-- The whole sanitizer as the spec words it: normalize line breaks,
trim, then the fence handling of `spec_fences`. -/
def sanitize_spec (json_string : Option (List Char)) : List Char :=
  match json_string with
  | none => []
  | some s => spec_fences (pyStrip (pyNorm s))

/-! ## Substitution engine -/

/-- The value stored under a placeholder name in the template JSON's
`Placeholders` dictionary.  `obj ov` models a JSON object whose
`original_value` field is `ov` (`none` = the field is missing; a JSON
`null` original value behaves identically in `generate_filled_contract`
and is modelled the same way); `nonobj` models a non-dict value, which
the sources guard against with `isinstance(details_dict, dict)`. -/
inductive PVal where
  | obj (original_value : Option String)
  | nonobj
deriving DecidableEq

/-- The descending-length order used by
`sorted(keys, key=len, reverse=True)`. -/
def lenDescOrder (a b : String) : Prop := b.length ≤ a.length

instance : DecidableRel lenDescOrder := fun _ _ => Nat.decLe _ _

instance : IsTotal String lenDescOrder :=
  ⟨fun a b => (Nat.le_total b.length a.length).elim Or.inl Or.inr⟩

instance : IsTrans String lenDescOrder :=
  ⟨fun _ _ _ h₁ h₂ => Nat.le_trans h₂ h₁⟩

/-- `sorted(extracted_placeholders_details.keys(), key=len, reverse=True)`:
a stable sort of the placeholder names by descending length. -/
def sorted_placeholder_keys (placeholders : List (String × PVal)) : List String :=
  List.insertionSort lenDescOrder (placeholders.map Prod.fst)

/-- The per-placeholder value resolution of `generate_filled_contract`
(`main.py` lines 186–199): the user value if present (a JSON `null`
user value is treated by the code exactly like an absent key and is
modelled as one), else a present non-null `original_value`, else the
placeholder key itself (with a logged warning). -/
def resolve_plain (user_values : List (String × String))
    (placeholders : List (String × PVal)) (key : String) : String :=
  match dictGet key user_values with
  | some v => v
  | none =>
    match dictGet key placeholders with
    | some (PVal.obj (some ov)) => ov
    | _ => key

/-- The substitution loop of `generate_filled_contract` (`main.py`
lines 181–204). -/
def generate_filled_contract (template_text : List Char)
    (placeholders : List (String × PVal))
    (user_values : List (String × String)) : List Char :=
  (sorted_placeholder_keys placeholders).foldl
    (fun acc key =>
      pyReplace acc key.data (resolve_plain user_values placeholders key).data)
    template_text

/-- The per-placeholder value resolution of
`generate_styled_html_document_endpoint` (`main.py` lines 251–263):
identical to `resolve_plain` except that the final fallback is the
empty string rather than the placeholder key. -/
def resolve_styled (user_values : List (String × String))
    (placeholders : List (String × PVal)) (key : String) : String :=
  match dictGet key user_values with
  | some v => v
  | none =>
    match dictGet key placeholders with
    | some (PVal.obj (some ov)) => ov
    | _ => ""

/-- The substitution loop of `generate_styled_html_document_endpoint`
(`main.py` lines 246–266). -/
def generate_styled_filled_text (template_text : List Char)
    (placeholders : List (String × PVal))
    (user_values : List (String × String)) : List Char :=
  (sorted_placeholder_keys placeholders).foldl
    (fun acc key =>
      pyReplace acc key.data (resolve_styled user_values placeholders key).data)
    template_text

/-- The per-placeholder value resolution shared by the two generate
button handlers of `contract_generator_ui.py` (lines 281–293 and
323–335): `user_placeholder_values.get(key, "")` is tested for
truthiness, so an empty user value falls through to
`placeholder_data.get("original_value", key)` (here too, a present
JSON `null` field is modelled as an absent one). -/
def ui_replacement_value (user_values : List (String × String))
    (placeholders : List (String × PVal)) (key : String) : String :=
  let user_value := (dictGet key user_values).getD ""
  if user_value = "" then
    match dictGet key placeholders with
    | some (PVal.obj ov) => ov.getD key
    | _ => key
  else user_value

/-- The substitution loop of the generator UI button handlers. -/
def ui_generate_contract (template_text : List Char)
    (placeholders : List (String × PVal))
    (user_values : List (String × String)) : List Char :=
  (sorted_placeholder_keys placeholders).foldl
    (fun acc key =>
      pyReplace acc key.data (ui_replacement_value user_values placeholders key).data)
    template_text

/-- The tier-(b) lookup shared by both render operations: the entry's
`original_value` when the entry exists, is a dict, and the field is
present and non-null. -/
def has_original (ps : List (String × PVal)) (key : String) : Option String :=
  match dictGet key ps with
  | some (PVal.obj (some ov)) => some ov
  | _ => none

/-! ## Multi-document comparison pipeline -/

/-- Values `json.loads` can produce. -/
inductive Json where
  | null
  | bool (b : Bool)
  | num (n : Int)
  | str (s : String)
  | arr (elems : List Json)
  | obj (fields : List (String × Json))

/-- Python `"clause_category" in d` on a parsed JSON object. -/
def json_has_key (k : String) : List (String × Json) → Bool
  | [] => false
  | (k', _) :: rest => k' == k || json_has_key k rest

/-- `true` for the parse results that are neither a JSON array nor a
JSON object (they cannot be wrapped into a one-element list). -/
def json_scalar : Json → Bool
  | Json.arr _ => false
  | Json.obj _ => false
  | _ => true

/-- The response clean-up of `compare_contracts_with_llm`
(`contract_compare.py` lines 248–254): strip whitespace, drop a leading
"```json" and a trailing "```" fence, strip again. -/
def llm_fence_strip (llm_output : List Char) : List Char :=
  let t := pyStrip llm_output
  let t := if "```json".data.isPrefixOf t then t.drop 7 else t
  let t := if "```".data.isSuffixOf t then dropEnd 3 t else t
  pyStrip t

/-- The result post-processing of `compare_contracts_with_llm`
(`contract_compare.py` lines 248–278).  `parse` stands for `json.loads`
on the cleaned text (`none` = `json.JSONDecodeError`).  `none` in the
result models the function returning Python `None` ("no valid data"). -/
def compare_contracts_with_llm (llm_output : List Char)
    (parse : List Char → Option Json) : Option (List Json) :=
  let t := llm_fence_strip llm_output
  if t.isEmpty then some []
  else
    match parse t with
    | none => none
    | some (Json.arr elems) => some elems
    | some (Json.obj fields) =>
        if json_has_key "clause_category" fields then some [Json.obj fields]
        else none
    | some _ => none

/-- The per-document character budget (`max_len` in
`contract_compare.py` line 172). -/
def max_len : Nat := 30000

/-- The truncation pass of `compare_contracts_with_llm`
(`contract_compare.py` lines 172–179). -/
def truncated_texts (contract_texts : List (List Char)) : List (List Char) :=
  contract_texts.map (fun t => if max_len < t.length then t.take max_len else t)

/-- The warnings printed by the truncation pass: the 1-based indices of
the truncated documents (the loop warns "Contract {i+1} text truncated
…" for each oversized document). -/
def truncation_warnings (contract_texts : List (List Char)) : List Nat :=
  (contract_texts.enum.filter (fun p => max_len < p.2.length)).map (fun p => p.1 + 1)

/-! ### Report renderer (`generate_html_report_content`,
`contract_compare_ui.py` lines 75–164; `generate_html_report` in
`contract_compare.py` uses the same notice and row-filtering logic). -/

/-- One comparison record: the dict parsed from one element of the LLM's
JSON array, as a string-valued association list (`item.get` defaults). -/
abbrev Record := List (String × String)

/-- `item.get(k, d)`. -/
def rget (item : Record) (k d : String) : String := (dictGet k item).getD d

/-- The absence sentinels (`not_found_phrases`). -/
def not_found_phrases : List String := ["not specified", "not found", "n/a"]

/-- `f"contract_{chr(65+i).lower()}_detail"`. -/
def detail_key (i : Nat) : String :=
  "contract_" ++ (Char.toLower (Char.ofNat (65 + i))).toString ++ "_detail"

/-- The per-document details gathered for one record (the loop over
`enumerate(contract_labels)`; the key uses the index, not the label). -/
def contract_details (labels : List Char) (item : Record) : List String :=
  (List.range labels.length).map (fun i => rget item (detail_key i) "N/A")

/-- `all_not_found`: every document's detail is an absence sentinel. -/
def all_not_found (labels : List Char) (item : Record) : Bool :=
  (contract_details labels item).all (fun d => not_found_phrases.contains (pyLower d))

/-- The `skip_row` conditions of the renderer loop. -/
def skip_row (labels : List Char) (item : Record) : Bool :=
  let analysis_lower := pyLower (rget item "analysis_of_difference" "N/A")
  if analysis_lower = "not found in any contract." then true
  else if all_not_found labels item && not_found_phrases.contains analysis_lower then true
  else false

/-- The records that survive filtering and become table rows. -/
def report_rows (labels : List Char) (data : List Record) : List Record :=
  data.filter (fun item => !skip_row labels item)

/-- CSS class chosen for the analysis cell. -/
def analysis_class (analysis_lower : String) : String :=
  if occursIn "no significant difference".data analysis_lower.data
      || occursIn "similar".data analysis_lower.data then "no-difference"
  else "difference"

/-- The notice rendered when `not comparison_data` (both for Python
`None` and for the empty list). -/
def no_data_notice : String :=
  "<div class=\x27alert alert-info\x27>No comparison data was generated. This could be due to an error in processing, the LLM did not return valid data, or no differences were identified by the LLM.</div>"

/-- The notice appended when every record was filtered out. -/
def no_rows_notice : String :=
  "<div class=\x27alert alert-info\x27>No significant differences were identified by the LLM for comparison, or all identified items were filtered out.</div>"

/-- `contract_columns`: one header cell per label. -/
def contract_columns (labels : List Char) : String :=
  String.join (labels.map (fun label =>
    "<th>" ++ label.toString ++ " Detail</th>\n                    "))

/-- The style block and table head of the report (f-string lines 85–107;
`\x7b`/`\x7d` are the literal braces the doubled braces render to). -/
def report_head (labels : List Char) : String :=
  "\n    <style>\n        .comparison-table \x7b width: 100%; border-collapse: collapse; margin-top: 20px; box-shadow: 0 2px 15px rgba(0,0,0,0.1); background-color: #fff; \x7d\n        .comparison-table th, .comparison-table td \x7b border: 1px solid #ddd; padding: 12px; text-align: left; vertical-align: top; \x7d\n        .comparison-table th \x7b background-color: #007bff; color: white; font-weight: bold; \x7d\n        .comparison-table tr:nth-child(even) \x7b background-color: #f9f9f9; \x7d\n        .comparison-table tr:hover \x7b background-color: #f1f1f1; \x7d\n        .category \x7b font-weight: bold; \x7d\n        .difference \x7b color: #d9534f; \x7d\n        .no-difference \x7b color: #5cb85c; \x7d\n        .detail-cell \x7b white-space: pre-wrap; word-wrap: break-word; \x7d\n    </style>\n    \n    <h3>Contract Comparison Report - Identified Differences ("
  ++ toString labels.length
  ++ " Contracts)</h3>\n    <table class=\"comparison-table\">\n        <thead>\n            <tr>\n                <th>Differing Aspect / Clause Category</th>\n                "
  ++ contract_columns labels
  ++ "<th>Analysis of Difference</th>\n            </tr>\n        </thead>\n        <tbody>\n    "

/-- `contract_detail_cells` for one record. -/
def detail_cells (labels : List Char) (item : Record) : String :=
  String.join ((contract_details labels item).map (fun detail =>
    "<td class=\"detail-cell\">" ++ detail ++ "</td>\n                    "))

/-- The table row rendered for one surviving record. -/
def row_html (labels : List Char) (item : Record) : String :=
  "\n                <tr>\n                    <td class=\"category\">"
  ++ rget item "clause_category" "N/A"
  ++ "</td>\n                    "
  ++ detail_cells labels item
  ++ "<td class=\""
  ++ analysis_class (pyLower (rget item "analysis_of_difference" "N/A"))
  ++ " detail-cell\">"
  ++ rget item "analysis_of_difference" "N/A"
  ++ "</td>\n                </tr>\n        "

/-- `generate_html_report_content(comparison_data, contract_labels)`:
`none` models the Python `None` argument; the `if not comparison_data`
guard sends both `None` and `[]` to `no_data_notice`. -/
def generate_html_report_content (comparison_data : Option (List Record))
    (labels : List Char) : String :=
  match comparison_data with
  | none => no_data_notice
  | some [] => no_data_notice
  | some data =>
      report_head labels
      ++ String.join ((report_rows labels data).map (row_html labels))
      ++ "\n            </tbody>\n        </table>\n    "
      ++ (if (report_rows labels data).isEmpty then no_rows_notice else "")

/-! ### Extraction phase of the comparison job (`compare_contracts` in
`compare_main.py`, lines 142–162). -/

/-- The failure identifier recorded for the document at input index `i`:
`f"Contract {chr(65 + i)} ({files[i].filename})"` (when extraction raised,
the source appends `": {str(e)}"` to this; the exception text is not
modelled). -/
def extraction_failure_msg (i : Nat) (filename : String) : String :=
  "Contract " ++ (Char.ofNat (65 + i)).toString ++ " (" ++ filename ++ ")"

/-- `if contract_text and contract_text.strip():` — the extraction
outcome counts as a success when it is a string with non-whitespace
content (`none` models both a `None` return and a raised exception). -/
def extraction_ok (ext : Option (List Char)) : Bool :=
  match ext with
  | some s => !(pyStrip s).isEmpty
  | none => false

/-- The `for i, file_path in enumerate(saved_files)` loop: successful
texts are appended together with the label
`chr(65 + len(contract_texts) - 1)` (position among the successes);
failures append `extraction_failure_msg` for the input index. -/
def extract_loop : Nat → List (List Char) → List Char → List String →
    List (String × Option (List Char)) →
    List (List Char) × List Char × List String
  | _, texts, labels, failed, [] => (texts, labels, failed)
  | i, texts, labels, failed, (name, ext) :: rest =>
    if extraction_ok ext then
      extract_loop (i + 1) (texts ++ [ext.getD []])
        (labels ++ [Char.ofNat (65 + texts.length)]) failed rest
    else
      extract_loop (i + 1) texts labels
        (failed ++ [extraction_failure_msg i name]) rest

/-- `compare_contracts` up to the LLM call: each input document is a
`(filename, extraction outcome)` pair; fewer than two successes fail
the job with the failing identifiers joined into the error detail. -/
def compare_contracts (docs : List (String × Option (List Char))) :
    Except String (List (List Char) × List Char) :=
  let r := extract_loop 0 [] [] [] docs
  if r.1.length < 2 then
    Except.error ("Could not extract text from enough contracts. Failed: "
      ++ String.intercalate ", " r.2.2)
  else
    Except.ok (r.1, r.2.1)

/-! ## Support lemmas on the Python string primitives -/

theorem isPrefixOf_iff_exists (p : List Char) :
    ∀ l, p.isPrefixOf l = true ↔ ∃ r, l = p ++ r := by
  induction p with
  | nil => intro l; simp [List.isPrefixOf]
  | cons a as ih =>
    intro l
    cases l with
    | nil => simp [List.isPrefixOf]
    | cons b bs =>
      simp only [List.isPrefixOf, Bool.and_eq_true, beq_iff_eq, ih bs, List.cons_append]
      constructor
      · rintro ⟨rfl, r, rfl⟩; exact ⟨r, rfl⟩
      · rintro ⟨r, h⟩
        injection h with h1 h2
        exact ⟨h1.symm, r, h2⟩

theorem occursIn_iff_exists (pat : List Char) :
    ∀ l, occursIn pat l = true ↔ ∃ s t, l = s ++ pat ++ t := by
  intro l
  induction l with
  | nil =>
    simp only [occursIn, List.isEmpty_iff]
    constructor
    · rintro rfl; exact ⟨[], [], rfl⟩
    · rintro ⟨s, t, h⟩
      rcases List.append_eq_nil.mp (List.append_eq_nil.mp h.symm).1 with ⟨-, h2⟩
      exact h2
  | cons c rest ih =>
    simp only [occursIn, Bool.or_eq_true, isPrefixOf_iff_exists, ih]
    constructor
    · rintro (⟨r, hr⟩ | ⟨s, t, hst⟩)
      · exact ⟨[], r, by simpa using hr⟩
      · exact ⟨c :: s, t, by simp [hst]⟩
    · rintro ⟨s, t, hst⟩
      cases s with
      | nil => exact Or.inl ⟨t, by simpa using hst⟩
      | cons s0 s' =>
        injection hst with h1 h2
        exact Or.inr ⟨s', t, h2⟩

theorem occursIn_of_within (pat m u v l : List Char) (hl : l = u ++ m ++ v)
    (h : occursIn pat m = true) : occursIn pat l = true := by
  rcases (occursIn_iff_exists pat m).mp h with ⟨s, t, rfl⟩
  exact (occursIn_iff_exists pat l).mpr
    ⟨u ++ s, t ++ v, by simp [hl, List.append_assoc]⟩

theorem pyStrip_decomp (l : List Char) : ∃ u v, l = u ++ pyStrip l ++ v := by
  refine ⟨l.takeWhile pyIsSpace,
    ((l.dropWhile pyIsSpace).reverse.takeWhile pyIsSpace).reverse, ?_⟩
  have h3 : l.dropWhile pyIsSpace =
      pyStrip l ++ ((l.dropWhile pyIsSpace).reverse.takeWhile pyIsSpace).reverse := by
    have h2 := congrArg List.reverse
      (List.takeWhile_append_dropWhile pyIsSpace (l.dropWhile pyIsSpace).reverse)
    rw [List.reverse_append, List.reverse_reverse] at h2
    exact h2.symm
  conv_lhs => rw [← List.takeWhile_append_dropWhile pyIsSpace l, h3]
  simp [List.append_assoc]

theorem dropWhile_head_false (p : Char → Bool) :
    ∀ (l : List Char) (c : Char) (t : List Char),
      l.dropWhile p = c :: t → p c = false := by
  intro l
  induction l with
  | nil => intro c t h; simp [List.dropWhile] at h
  | cons a rest ih =>
    intro c t h
    rw [List.dropWhile_cons] at h
    by_cases hp : p a = true
    · rw [if_pos hp] at h; exact ih c t h
    · rw [if_neg hp] at h
      injection h with h1 _
      simpa [← h1] using hp

theorem dropWhile_self_idem (p : Char → Bool) (l : List Char) :
    (l.dropWhile p).dropWhile p = l.dropWhile p := by
  cases h : l.dropWhile p with
  | nil => simp
  | cons c t =>
    rw [List.dropWhile_cons, if_neg]
    simp [dropWhile_head_false p l c t h]

theorem pyStrip_cons_of_space {c : Char} (l : List Char) (hc : pyIsSpace c = true) :
    pyStrip (c :: l) = pyStrip l := by
  simp [pyStrip, List.dropWhile_cons, hc]

theorem rstrip_part (y : List Char) :
    ∃ t, y = (y.reverse.dropWhile pyIsSpace).reverse ++ t := by
  have h2 := congrArg List.reverse (List.takeWhile_append_dropWhile pyIsSpace y.reverse)
  rw [List.reverse_append, List.reverse_reverse] at h2
  exact ⟨(y.reverse.takeWhile pyIsSpace).reverse, h2.symm⟩

theorem pyStrip_of_left_clean (y : List Char) (h : y.dropWhile pyIsSpace = y) :
    pyStrip y = (y.reverse.dropWhile pyIsSpace).reverse := by
  unfold pyStrip; rw [h]

theorem pyStrip_idem (l : List Char) : pyStrip (pyStrip l) = pyStrip l := by
  have key : (pyStrip l).dropWhile pyIsSpace = pyStrip l := by
    rcases rstrip_part (l.dropWhile pyIsSpace) with ⟨t, ht⟩
    cases hres : pyStrip l with
    | nil => rfl
    | cons c cs =>
      have hzc : l.dropWhile pyIsSpace = c :: (cs ++ t) := by
        rw [ht]
        have h2 : ((l.dropWhile pyIsSpace).reverse.dropWhile pyIsSpace).reverse = c :: cs := hres
        rw [h2]; simp
      have hpc := dropWhile_head_false pyIsSpace l c (cs ++ t) hzc
      rw [List.dropWhile_cons, if_neg (by simp [hpc])]
  have hrev : (pyStrip l).reverse = (l.dropWhile pyIsSpace).reverse.dropWhile pyIsSpace := by
    show (((l.dropWhile pyIsSpace).reverse.dropWhile pyIsSpace).reverse).reverse = _
    rw [List.reverse_reverse]
  rw [pyStrip_of_left_clean _ key, hrev, dropWhile_self_idem]
  rfl

theorem replaceGo_no_head (hc : Char) (pt rep : List Char) :
    ∀ (fuel : Nat) (s : List Char), (∀ c ∈ s, c ≠ hc) →
      replaceGo (hc :: pt) rep fuel s = s := by
  intro fuel
  induction fuel with
  | zero => intro s hs; cases s <;> rfl
  | succ n ih =>
    intro s hs
    cases s with
    | nil => rfl
    | cons c rest =>
      have hne : (hc == c) = false := by
        simp [beq_iff_eq]
        exact fun h => (hs c (by simp)) h.symm
      show (if (hc :: pt).isPrefixOf (c :: rest) then _ else _) = _
      rw [if_neg (by simp [List.isPrefixOf, hne])]
      rw [ih rest (fun x hx => hs x (by simp [hx]))]

theorem pyReplace_no_head (s : List Char) (hc : Char) (pt rep : List Char)
    (hs : ∀ c ∈ s, c ≠ hc) : pyReplace s (hc :: pt) rep = s := by
  unfold pyReplace
  rw [if_neg (by simp)]
  exact replaceGo_no_head hc pt rep (s.length + 1) s hs

theorem pyNorm_of_no_cr (s : List Char) (h : '\r' ∉ s) : pyNorm s = s := by
  unfold pyNorm
  have h1 : pyReplace s "\r\n".data "\n".data = s :=
    pyReplace_no_head s '\r' ['\n'] "\n".data (fun c hcs hceq => h (hceq ▸ hcs))
  rw [h1]
  exact pyReplace_no_head s '\r' [] "\n".data (fun c hcs hceq => h (hceq ▸ hcs))

theorem dropEnd_cons_of_le (n : Nat) (c : Char) (r : List Char) (h : n ≤ r.length) :
    dropEnd n (c :: r) = c :: dropEnd n r := by
  unfold dropEnd
  have hl : (c :: r).length - n = (r.length - n) + 1 := by
    simp only [List.length_cons]; omega
  rw [hl, List.take_succ_cons]

theorem dropEnd_cons_of_gt (n : Nat) (c : Char) (r : List Char) (h : r.length < n) :
    dropEnd n (c :: r) = [] ∧ dropEnd n r = [] := by
  unfold dropEnd
  constructor
  · have hl : (c :: r).length - n = 0 := by simp only [List.length_cons]; omega
    rw [hl, List.take_zero]
  · have hl : r.length - n = 0 := by omega
    rw [hl, List.take_zero]

theorem pyStrip_dropEnd_cons_space (n : Nat) (c : Char) (r : List Char)
    (hc : pyIsSpace c = true) :
    pyStrip (dropEnd n (c :: r)) = pyStrip (dropEnd n r) := by
  rcases Nat.lt_or_ge r.length n with h | h
  · rcases dropEnd_cons_of_gt n c r h with ⟨h1, h2⟩
    rw [h1, h2]
  · rw [dropEnd_cons_of_le n c r h, pyStrip_cons_of_space _ hc]

theorem drop_of_json_nl_head (text : List Char)
    (h : "```json\n".data.isPrefixOf text = true) :
    text.drop 7 = '\n' :: text.drop 8 := by
  rcases (isPrefixOf_iff_exists _ _).mp h with ⟨r, rfl⟩
  have h7 : ("```json\n".data ++ r).drop 7 = "```json\n".data.drop 7 ++ r :=
    List.drop_append_of_le_length (by decide)
  have h8 : ("```json\n".data ++ r).drop 8 = "```json\n".data.drop 8 ++ r :=
    List.drop_append_of_le_length (by decide)
  rw [h7, h8]
  rfl

theorem strip_fences_eq_spec_fences (text : List Char) :
    strip_fences text = spec_fences text := by
  unfold strip_fences spec_fences
  by_cases h1 : ("```json\n".data.isPrefixOf text && "\n```".data.isSuffixOf text) = true
  · rw [if_pos h1, if_pos h1]
    have hp : "```json\n".data.isPrefixOf text = true := by
      simp only [Bool.and_eq_true] at h1
      exact h1.1
    rw [drop_of_json_nl_head text hp, pyStrip_dropEnd_cons_space 4 '\n' _ (by decide)]
  · rw [if_neg h1, if_neg h1]
    by_cases h2 : ("```json".data.isPrefixOf text && "```".data.isSuffixOf text) = true
    · rw [if_pos h2, if_pos h2]
    · rw [if_neg h2, if_neg h2]
      by_cases h3 : ("```\n".data.isPrefixOf text && "\n```".data.isSuffixOf text) = true
      · rw [if_pos h3, if_pos h3]
      · rw [if_neg h3, if_neg h3]
        by_cases h4 : ("```".data.isPrefixOf text && "```".data.isSuffixOf text) = true
        · rw [if_pos h4, if_pos h4]
        · rw [if_neg h4, if_neg h4]
          by_cases p1 : "```json\n".data.isPrefixOf text = true
          · rw [if_pos p1, if_pos p1, drop_of_json_nl_head text p1,
              pyStrip_cons_of_space _ (by decide)]
          · rw [if_neg p1, if_neg p1]
            split_ifs <;> rfl

theorem occursIn_of_isPrefixOf (q p text : List Char) (hqp : ∃ p', p = q ++ p')
    (h : p.isPrefixOf text = true) : occursIn q text = true := by
  rcases hqp with ⟨p', rfl⟩
  rcases (isPrefixOf_iff_exists _ _).mp h with ⟨r, rfl⟩
  exact (occursIn_iff_exists _ _).mpr ⟨[], p' ++ r, by simp [List.append_assoc]⟩

theorem strip_fences_of_fence_free (text : List Char)
    (hf : occursIn "```".data text = false) : strip_fences text = pyStrip text := by
  have c1 : "```json\n".data.isPrefixOf text = false := by
    cases hb : "```json\n".data.isPrefixOf text
    · rfl
    · rw [occursIn_of_isPrefixOf "```".data "```json\n".data text ⟨"json\n".data, rfl⟩ hb] at hf
      exact absurd hf (by simp)
  have c2 : "```json".data.isPrefixOf text = false := by
    cases hb : "```json".data.isPrefixOf text
    · rfl
    · rw [occursIn_of_isPrefixOf "```".data "```json".data text ⟨"json".data, rfl⟩ hb] at hf
      exact absurd hf (by simp)
  have c3 : "```\n".data.isPrefixOf text = false := by
    cases hb : "```\n".data.isPrefixOf text
    · rfl
    · rw [occursIn_of_isPrefixOf "```".data "```\n".data text ⟨"\n".data, rfl⟩ hb] at hf
      exact absurd hf (by simp)
  have c4 : "```".data.isPrefixOf text = false := by
    cases hb : "```".data.isPrefixOf text
    · rfl
    · rw [occursIn_of_isPrefixOf "```".data "```".data text ⟨[], by simp⟩ hb] at hf
      exact absurd hf (by simp)
  simp [strip_fences, c1, c2, c3, c4]

theorem no_cr_pyStrip (s : List Char) (hr : '\r' ∉ s) : '\r' ∉ pyStrip s := by
  rcases pyStrip_decomp s with ⟨u, v, hs⟩
  intro hx
  apply hr
  rw [hs]
  simp only [List.mem_append]
  tauto

theorem occursIn_pyStrip_false (pat s : List Char) (hf : occursIn pat s = false) :
    occursIn pat (pyStrip s) = false := by
  rcases pyStrip_decomp s with ⟨u, v, hs⟩
  cases hb : occursIn pat (pyStrip s)
  · rfl
  · rw [occursIn_of_within pat (pyStrip s) u v s hs hb] at hf
    exact absurd hf (by simp)

/-! ## Claim theorems -/

/-- C6 counterexample: the string "a\rb" contains no fence marker, yet
`strip_markdown_json` normalizes its carriage return to a line feed, so
the sanitizer's output differs from `"a\rb".strip()` — the claim
`sanitize(s) == s.strip()` for all fence-free `s` fails at this input. -/
theorem strip_markdown_json_cr_counterexample :
    occursIn "```".data "a\rb".data = false ∧
    strip_markdown_json (some "a\rb".data) = "a\nb".data ∧
    pyStrip "a\rb".data = "a\rb".data ∧
    strip_markdown_json (some "a\rb".data) ≠ pyStrip "a\rb".data := by decide

/-- C6 (amended): for every string free of fence markers and of carriage
returns, the sanitizer returns exactly `s.strip()` and is idempotent on
it: `sanitize(sanitize(s)) == sanitize(s) == s.strip()`. -/
theorem strip_markdown_json_fence_free_strip (s : List Char)
    (hf : occursIn "```".data s = false) (hr : '\r' ∉ s) :
    strip_markdown_json (some s) = pyStrip s ∧
    strip_markdown_json (some (strip_markdown_json (some s)))
      = strip_markdown_json (some s) := by
  have core : ∀ x : List Char, occursIn "```".data x = false → '\r' ∉ x →
      strip_markdown_json (some x) = pyStrip x := by
    intro x hfx hrx
    show strip_fences (pyStrip (pyNorm x)) = pyStrip x
    rw [pyNorm_of_no_cr x hrx,
      strip_fences_of_fence_free _ (occursIn_pyStrip_false _ _ hfx), pyStrip_idem]
  have h1 := core s hf hr
  refine ⟨h1, ?_⟩
  rw [h1, core (pyStrip s) (occursIn_pyStrip_false _ _ hf) (no_cr_pyStrip s hr),
    pyStrip_idem]

/-- Witness for the amended C6 at the concrete fence-free input
`" hello "`. -/
theorem strip_markdown_json_fence_free_strip_witness :
    occursIn "```".data " hello ".data = false ∧ '\r' ∉ " hello ".data ∧
    (strip_markdown_json (some " hello ".data) = pyStrip " hello ".data ∧
     strip_markdown_json (some (strip_markdown_json (some " hello ".data)))
       = strip_markdown_json (some " hello ".data)) :=
  ⟨by decide, by decide,
    strip_markdown_json_fence_free_strip " hello ".data (by decide) (by decide)⟩

/-- C7: for every input, `strip_markdown_json` agrees with the
spec-worded sanitizer: complete begins-and-ends fence pairs are checked
first, from most specific (```json with newline) to least specific
(bare ``` without newline), the matching enclosing pair is stripped and
the result trimmed; when no complete pair matches, only a matching
opening fence prefix is stripped (same order) and the trimmed remainder
is returned without fabricating a closing boundary. -/
theorem strip_markdown_json_eq_sanitize_spec (json_string : Option (List Char)) :
    strip_markdown_json json_string = sanitize_spec json_string := by
  cases json_string with
  | none => rfl
  | some s => exact strip_fences_eq_spec_fences (pyStrip (pyNorm s))

theorem sorted_keys_sorted (ps : List (String × PVal)) :
    List.Sorted lenDescOrder (sorted_placeholder_keys ps) :=
  List.sorted_insertionSort lenDescOrder (ps.map Prod.fst)

theorem length_lt_of_proper_sub (n₁ n₂ : String)
    (hsub : occursIn n₁.data n₂.data = true) (hne : n₁ ≠ n₂) :
    n₁.length < n₂.length := by
  rcases (occursIn_iff_exists _ _).mp hsub with ⟨s, t, hst⟩
  have hlen : n₂.data.length = s.length + n₁.data.length + t.length := by
    rw [hst]; simp [List.length_append]; omega
  have hle : n₁.data.length ≤ n₂.data.length := by omega
  rcases Nat.lt_or_ge n₁.data.length n₂.data.length with h | h
  · exact h
  · exfalso
    have hs : s.length = 0 ∧ t.length = 0 := by omega
    have hseq : s = [] := List.length_eq_zero.mp hs.1
    have hteq : t = [] := List.length_eq_zero.mp hs.2
    rw [hseq, hteq, List.nil_append, List.append_nil] at hst
    exact hne (String.ext hst.symm)

/-- C1: for every template whose placeholder set contains two names with
one a literal substring of the other, `generate_filled_contract`
processes the names in descending length order (every position of the
longer name in the processing order precedes every position of the
shorter), and rendering the template
`"Party_Name_Address: Party_Name_Address"` with `Party_Name` resolved to
"Acme" and `Party_Name_Address` resolved to "1 Main St" yields
`"1 Main St: 1 Main St"`. -/
theorem generate_filled_contract_longest_first
    (ps : List (String × PVal)) (n₁ n₂ : String)
    (_h₁ : n₁ ∈ ps.map Prod.fst) (_h₂ : n₂ ∈ ps.map Prod.fst)
    (hsub : occursIn n₁.data n₂.data = true) (hne : n₁ ≠ n₂) :
    (∀ i j : Fin (sorted_placeholder_keys ps).length,
        (sorted_placeholder_keys ps).get i = n₂ →
        (sorted_placeholder_keys ps).get j = n₁ → i < j)
    ∧ generate_filled_contract "Party_Name_Address: Party_Name_Address".data
        [("Party_Name", PVal.obj none), ("Party_Name_Address", PVal.obj none)]
        [("Party_Name", "Acme"), ("Party_Name_Address", "1 Main St")]
      = "1 Main St: 1 Main St".data := by
  constructor
  · intro i j hi hj
    have hlen := length_lt_of_proper_sub n₁ n₂ hsub hne
    by_contra hij
    push_neg at hij
    rcases Nat.lt_or_ge j.val i.val with hlt | hge
    · have hrel := @List.Sorted.rel_get_of_lt _ _ _ (sorted_keys_sorted ps) j i hlt
      rw [hi, hj] at hrel
      exact absurd hrel (by simp [lenDescOrder]; omega)
    · have hij2 : i.val = j.val := by
        have := hij
        simp [Fin.lt_def] at this
        omega
      have : n₂ = n₁ := by
        rw [← hi, ← hj]
        congr 1
        exact Fin.ext hij2
      exact hne this.symm
  · decide

/-- Witness for C1 at the two-placeholder set of the spec's example. -/
theorem generate_filled_contract_longest_first_witness :
    ("Party_Name" ∈ ([("Party_Name", PVal.obj none),
        ("Party_Name_Address", PVal.obj none)]).map Prod.fst) ∧
    ("Party_Name_Address" ∈ ([("Party_Name", PVal.obj none),
        ("Party_Name_Address", PVal.obj none)]).map Prod.fst) ∧
    occursIn "Party_Name".data "Party_Name_Address".data = true ∧
    "Party_Name" ≠ "Party_Name_Address" ∧
    ((∀ i j : Fin (sorted_placeholder_keys
          [("Party_Name", PVal.obj none), ("Party_Name_Address", PVal.obj none)]).length,
        (sorted_placeholder_keys
          [("Party_Name", PVal.obj none), ("Party_Name_Address", PVal.obj none)]).get i
          = "Party_Name_Address" →
        (sorted_placeholder_keys
          [("Party_Name", PVal.obj none), ("Party_Name_Address", PVal.obj none)]).get j
          = "Party_Name" → i < j)
    ∧ generate_filled_contract "Party_Name_Address: Party_Name_Address".data
        [("Party_Name", PVal.obj none), ("Party_Name_Address", PVal.obj none)]
        [("Party_Name", "Acme"), ("Party_Name_Address", "1 Main St")]
      = "1 Main St: 1 Main St".data) :=
  ⟨by decide, by decide, by decide, by decide,
    generate_filled_contract_longest_first
      [("Party_Name", PVal.obj none), ("Party_Name_Address", PVal.obj none)]
      "Party_Name" "Party_Name_Address"
      (by decide) (by decide) (by decide) (by decide)⟩

/-- C2 counterexample: in the styled-HTML render operation
(`generate_styled_html_document_endpoint`), a placeholder with neither a
user value nor an `original_value` is replaced by the empty string — not
by its own name as the claim states for every render operation; the
rendered output for template "Jurisdiction" is empty. -/
theorem resolve_styled_fallback_counterexample :
    resolve_styled [] [("Jurisdiction", PVal.obj none)] "Jurisdiction" = "" ∧
    resolve_styled [] [("Jurisdiction", PVal.obj none)] "Jurisdiction" ≠ "Jurisdiction" ∧
    generate_styled_filled_text "Jurisdiction".data
      [("Jurisdiction", PVal.obj none)] [] = [] := by decide

/-- C2 (amended): both render operations use the same tiers (a) and (b) —
a present user value verbatim (including the empty string), else a
present non-null `original_value` — but the final fallback differs:
`generate_filled_contract` substitutes the placeholder's own name (with
a warning), while the styled-HTML endpoint substitutes the empty string.
Neither raises: both always produce a replacement string. -/
theorem resolve_fallback_tiers (uv : List (String × String))
    (ps : List (String × PVal)) (key : String) :
    (∀ v, dictGet key uv = some v →
        resolve_plain uv ps key = v ∧ resolve_styled uv ps key = v)
    ∧ (∀ ov, dictGet key uv = none → has_original ps key = some ov →
        resolve_plain uv ps key = ov ∧ resolve_styled uv ps key = ov)
    ∧ (dictGet key uv = none → has_original ps key = none →
        resolve_plain uv ps key = key ∧ resolve_styled uv ps key = "") := by
  refine ⟨?_, ?_, ?_⟩
  · intro v hv
    unfold resolve_plain resolve_styled
    rw [hv]
    exact ⟨rfl, rfl⟩
  · intro ov hu ho
    unfold resolve_plain resolve_styled
    rw [hu]
    cases hps : dictGet key ps with
    | none => simp [has_original, hps] at ho
    | some pv =>
      cases pv with
      | obj o =>
        cases o with
        | none => simp [has_original, hps] at ho
        | some ov' =>
          simp [has_original, hps] at ho
          subst ho
          exact ⟨rfl, rfl⟩
      | nonobj => simp [has_original, hps] at ho
  · intro hu ho
    unfold resolve_plain resolve_styled
    rw [hu]
    cases hps : dictGet key ps with
    | none => exact ⟨rfl, rfl⟩
    | some pv =>
      cases pv with
      | obj o =>
        cases o with
        | none => exact ⟨rfl, rfl⟩
        | some ov' => simp [has_original, hps] at ho
      | nonobj => exact ⟨rfl, rfl⟩

/-- Witness for the amended C2: tier (a) with an explicitly empty user
value is used verbatim by both render operations. -/
theorem resolve_fallback_tiers_witness :
    dictGet "K" [("K", "")] = some "" ∧
    (resolve_plain [("K", "")] [] "K" = "" ∧ resolve_styled [("K", "")] [] "K" = "") :=
  ⟨by decide, (resolve_fallback_tiers [("K", "")] [] "K").1 "" (by decide)⟩

/-- C10: in the interactive generator UI's substitution loops, a
user-supplied empty string is treated as absent by the truthiness test:
the replacement is the same as with no user entry at all — the entry's
`original_value` when present, else the placeholder name — so the user
cannot blank out a field through that interface. -/
theorem ui_replacement_value_empty_ignored (uv : List (String × String))
    (ps : List (String × PVal)) (key : String)
    (h : dictGet key uv = some "") :
    ui_replacement_value uv ps key = ui_replacement_value [] ps key ∧
    ui_replacement_value uv ps key =
      (match dictGet key ps with
       | some (PVal.obj ov) => ov.getD key
       | some PVal.nonobj => key
       | none => key) := by
  unfold ui_replacement_value
  simp only [h, dictGet, Option.getD_some, if_pos rfl]
  refine ⟨rfl, ?_⟩
  cases hps : dictGet key ps with
  | none => rfl
  | some pv =>
    cases pv with
    | obj o => rfl
    | nonobj => rfl

/-- Witness for C10: an empty user value for "Date" still renders the
original value "Jan 1". -/
theorem ui_replacement_value_empty_ignored_witness :
    dictGet "Date" [("Date", "")] = some "" ∧
    (ui_replacement_value [("Date", "")] [("Date", PVal.obj (some "Jan 1"))] "Date"
        = ui_replacement_value [] [("Date", PVal.obj (some "Jan 1"))] "Date" ∧
     ui_replacement_value [("Date", "")] [("Date", PVal.obj (some "Jan 1"))] "Date"
        = "Jan 1") :=
  ⟨by decide,
    ui_replacement_value_empty_ignored [("Date", "")]
      [("Date", PVal.obj (some "Jan 1"))] "Date" (by decide)⟩

/-- C3 counterexample: the renderer's `if not comparison_data` guard
sends the empty-but-successful result and the indeterminate (`None`)
result to the very same notice — at this input pair the two outputs are
equal, so they do not "differ for every pair". -/
theorem generate_html_report_content_conflates :
    generate_html_report_content (some []) ['A', 'B']
      = generate_html_report_content none ['A', 'B'] := rfl

/-- C3 (amended): for every label list the renderer returns one combined
notice — "No comparison data was generated. This could be due to an
error in processing, the LLM did not return valid data, or no
differences were identified by the LLM." — both for the indeterminate
result and for the empty list; the two outcomes are conflated at the
renderer level (the Streamlit caller distinguishes them only through
separate status messages emitted before rendering). -/
theorem generate_html_report_content_single_notice (labels : List Char) :
    generate_html_report_content none labels = no_data_notice ∧
    generate_html_report_content (some []) labels = no_data_notice :=
  ⟨rfl, rfl⟩

theorem skip_row_iff (labels : List Char) (item : Record) :
    skip_row labels item = true ↔
      (pyLower (rget item "analysis_of_difference" "N/A") = "not found in any contract."
       ∨ (all_not_found labels item = true ∧
          not_found_phrases.contains
            (pyLower (rget item "analysis_of_difference" "N/A")) = true)) := by
  unfold skip_row
  by_cases h1 : pyLower (rget item "analysis_of_difference" "N/A")
      = "not found in any contract."
  · simp [h1]
  · rw [if_neg h1]
    cases h2 : (all_not_found labels item
        && not_found_phrases.contains (pyLower (rget item "analysis_of_difference" "N/A")))
    · rw [if_neg (by simp)]
      constructor
      · intro hx; exact absurd hx (by simp)
      · rintro (hx | ⟨ha, hb⟩)
        · exact absurd hx h1
        · rw [ha, hb] at h2; simp at h2
    · rw [if_pos rfl]
      constructor
      · intro _
        right
        simpa [Bool.and_eq_true] using h2
      · intro _; rfl

/-- C4 counterexample: a record with a non-absent detail ("30 days" for
document A) whose analysis text is "Not found in any contract." is
discarded by the renderer even though not every document's detail is an
absence sentinel — the claim's "discarded exactly when every detail is
absent AND the analysis is an absence statement" (and in particular its
retention guarantee) fails at this input. -/
theorem report_rows_counterexample :
    all_not_found ['A', 'B', 'C']
        [("clause_category", "Payment Terms"),
         ("contract_a_detail", "30 days"),
         ("contract_b_detail", "Not Found"),
         ("contract_c_detail", "Not Found"),
         ("analysis_of_difference", "Not found in any contract.")] = false ∧
    report_rows ['A', 'B', 'C']
        [[("clause_category", "Payment Terms"),
          ("contract_a_detail", "30 days"),
          ("contract_b_detail", "Not Found"),
          ("contract_c_detail", "Not Found"),
          ("analysis_of_difference", "Not found in any contract.")]] = [] := by decide

/-- C4 (amended): a record is discarded exactly when its lowercased
analysis text equals "not found in any contract." (regardless of the
details), or when every document's detail is one of the absence
sentinels "not specified" / "not found" / "n/a" (case-insensitively) and
the analysis itself equals one of those sentinels; every other record —
in particular one with a non-absent detail and an analysis other than
"not found in any contract." — is retained in the rows handed to the
report table. -/
theorem report_rows_mem_iff (labels : List Char) (data : List Record) (item : Record) :
    item ∈ report_rows labels data ↔
      item ∈ data ∧
      ¬(pyLower (rget item "analysis_of_difference" "N/A") = "not found in any contract."
        ∨ (all_not_found labels item = true ∧
           not_found_phrases.contains
             (pyLower (rget item "analysis_of_difference" "N/A")) = true)) := by
  unfold report_rows
  rw [List.mem_filter]
  constructor
  · rintro ⟨hm, hs⟩
    refine ⟨hm, fun hcontra => ?_⟩
    rw [(skip_row_iff labels item).mpr hcontra] at hs
    simp at hs
  · rintro ⟨hm, hn⟩
    refine ⟨hm, ?_⟩
    cases hsr : skip_row labels item
    · rfl
    · exact absurd ((skip_row_iff labels item).mp hsr) hn

/-- C5 counterexample: an empty (or whitespace-only) backend response
short-circuits to the empty list *before* any JSON parsing — so the
empty-list result is also produced by an unparsable empty response, not
only by a successfully parsed empty comparison as the claim states. -/
theorem compare_contracts_with_llm_empty_counterexample :
    compare_contracts_with_llm "".data (fun _ => none) = some ([] : List Json) ∧
    (fun _ => (none : Option Json)) (llm_fence_strip "".data) = none :=
  ⟨rfl, rfl⟩

/-- C5 (amended): a response that is empty after whitespace and fence
stripping yields the empty list ("assuming no differences found");
among non-empty stripped responses, a parse failure yields the
distinguished `None` outcome, a parsed array is returned as is (so the
empty list arises only from the parsed empty array), a parsed single
object is wrapped into a one-element array exactly when it has the
`clause_category` key and is otherwise `None`, and any other parsed
value is `None`; `None` is distinct from the empty list. -/
theorem compare_contracts_with_llm_characterization (llm_output : List Char)
    (parse : List Char → Option Json) :
    (llm_fence_strip llm_output = [] →
        compare_contracts_with_llm llm_output parse = some [])
    ∧ (llm_fence_strip llm_output ≠ [] → parse (llm_fence_strip llm_output) = none →
        compare_contracts_with_llm llm_output parse = none)
    ∧ (∀ elems, llm_fence_strip llm_output ≠ [] →
        parse (llm_fence_strip llm_output) = some (Json.arr elems) →
        compare_contracts_with_llm llm_output parse = some elems)
    ∧ (∀ fields, llm_fence_strip llm_output ≠ [] →
        parse (llm_fence_strip llm_output) = some (Json.obj fields) →
        (json_has_key "clause_category" fields = true →
            compare_contracts_with_llm llm_output parse = some [Json.obj fields])
        ∧ (json_has_key "clause_category" fields = false →
            compare_contracts_with_llm llm_output parse = none))
    ∧ (∀ j, llm_fence_strip llm_output ≠ [] →
        parse (llm_fence_strip llm_output) = some j → json_scalar j = true →
        compare_contracts_with_llm llm_output parse = none)
    ∧ (none : Option (List Json)) ≠ some [] := by
  refine ⟨?_, ?_, ?_, ?_, ?_, by simp⟩
  · intro h
    simp [compare_contracts_with_llm, h]
  · intro hne hp
    simp [compare_contracts_with_llm, List.isEmpty_iff, hne, hp]
  · intro elems hne hp
    simp [compare_contracts_with_llm, List.isEmpty_iff, hne, hp]
  · intro fields hne hp
    constructor
    · intro hk
      simp [compare_contracts_with_llm, List.isEmpty_iff, hne, hp, hk]
    · intro hk
      simp [compare_contracts_with_llm, List.isEmpty_iff, hne, hp, hk]
  · intro j hne hp hscal
    cases j with
    | null => simp [compare_contracts_with_llm, List.isEmpty_iff, hne, hp]
    | bool b => simp [compare_contracts_with_llm, List.isEmpty_iff, hne, hp]
    | num n => simp [compare_contracts_with_llm, List.isEmpty_iff, hne, hp]
    | str s => simp [compare_contracts_with_llm, List.isEmpty_iff, hne, hp]
    | arr elems => simp [json_scalar] at hscal
    | obj fields => simp [json_scalar] at hscal

/-- Witness for the amended C5: the backend response "[]" parses to the
empty array and yields the empty-but-successful result. -/
theorem compare_contracts_with_llm_characterization_witness :
    llm_fence_strip "[]".data ≠ [] ∧
    compare_contracts_with_llm "[]".data
        (fun t => if t = "[]".data then some (Json.arr []) else none)
      = some ([] : List Json) :=
  ⟨by decide,
    (compare_contracts_with_llm_characterization "[]".data
        (fun t => if t = "[]".data then some (Json.arr []) else none)).2.2.1
      [] (by decide) rfl⟩

/-- C9: each document's text longer than the 30,000-character budget is
truncated to exactly its first 30,000 characters with a warning recorded
for it (the 1-based document number), documents at or under the budget
pass through unchanged with no warning, and the truncation pass always
yields one output text per input text (it is never an error). -/
theorem truncated_texts_spec (texts : List (List Char)) (i : Nat) (t : List Char)
    (h : texts[i]? = some t) :
    (30000 < t.length → (truncated_texts texts)[i]? = some (t.take 30000))
    ∧ (t.length ≤ 30000 → (truncated_texts texts)[i]? = some t)
    ∧ (30000 < t.length ↔ (i + 1) ∈ truncation_warnings texts)
    ∧ (truncated_texts texts).length = texts.length := by
  refine ⟨?_, ?_, ?_, by simp [truncated_texts]⟩
  · intro hlen
    rw [truncated_texts, List.getElem?_map, h]
    simp [max_len, hlen]
  · intro hlen
    rw [truncated_texts, List.getElem?_map, h]
    simp [max_len, Nat.not_lt.mpr hlen]
  · constructor
    · intro hlen
      have hmem : (i, t) ∈ texts.enum := List.mk_mem_enum_iff_getElem?.mpr h
      refine List.mem_map.mpr ⟨(i, t), List.mem_filter.mpr ⟨hmem, ?_⟩, rfl⟩
      simpa [max_len] using hlen
    · intro hmem
      rcases List.mem_map.mp hmem with ⟨⟨j, u⟩, hjf, hji⟩
      rcases List.mem_filter.mp hjf with ⟨hje, hju⟩
      have hj : j = i := by omega
      subst hj
      have hu : u = t := by
        have := List.mk_mem_enum_iff_getElem?.mp hje
        rw [h] at this
        exact (Option.some_inj.mp this).symm
      subst hu
      simpa [max_len] using hju

/-- Witness for C9 at a two-document list with one oversized text. -/
theorem truncated_texts_spec_witness :
    ([List.replicate 30001 'x', "ok".data])[0]? = some (List.replicate 30001 'x') ∧
    ((30000 < (List.replicate 30001 'x').length →
        (truncated_texts [List.replicate 30001 'x', "ok".data])[0]?
          = some ((List.replicate 30001 'x').take 30000))
     ∧ ((List.replicate 30001 'x').length ≤ 30000 →
        (truncated_texts [List.replicate 30001 'x', "ok".data])[0]?
          = some (List.replicate 30001 'x'))
     ∧ (30000 < (List.replicate 30001 'x').length ↔
        (0 + 1) ∈ truncation_warnings [List.replicate 30001 'x', "ok".data])
     ∧ (truncated_texts [List.replicate 30001 'x', "ok".data]).length
          = ([List.replicate 30001 'x', "ok".data] : List (List Char)).length) :=
  ⟨rfl, truncated_texts_spec [List.replicate 30001 'x', "ok".data] 0
    (List.replicate 30001 'x') rfl⟩

theorem extract_loop_labels (docs : List (String × Option (List Char))) :
    ∀ (i : Nat) (texts : List (List Char)) (labels : List Char) (failed : List String),
      labels = (List.range texts.length).map (fun k => Char.ofNat (65 + k)) →
      (extract_loop i texts labels failed docs).2.1
        = (List.range (extract_loop i texts labels failed docs).1.length).map
            (fun k => Char.ofNat (65 + k)) := by
  induction docs with
  | nil => intro i texts labels failed h; simpa [extract_loop] using h
  | cons d rest ih =>
    intro i texts labels failed h
    obtain ⟨name, ext⟩ := d
    by_cases hok : extraction_ok ext = true
    · rw [extract_loop, if_pos hok]
      apply ih
      rw [h]
      simp [List.range_succ]
    · rw [extract_loop, if_neg hok]
      exact ih _ _ _ _ h

theorem extract_loop_failed (docs : List (String × Option (List Char))) :
    ∀ (i : Nat) (texts : List (List Char)) (labels : List Char) (failed : List String),
      (extract_loop i texts labels failed docs).2.2
        = failed ++ (((List.enumFrom i docs).filter
            (fun p => !extraction_ok p.2.2)).map
              (fun p => extraction_failure_msg p.1 p.2.1)) := by
  induction docs with
  | nil => intro i texts labels failed; simp [extract_loop]
  | cons d rest ih =>
    intro i texts labels failed
    obtain ⟨name, ext⟩ := d
    by_cases hok : extraction_ok ext = true
    · rw [extract_loop, if_pos hok, ih]
      simp [List.enumFrom_cons, List.filter_cons, hok]
    · rw [extract_loop, if_neg hok, ih]
      have hko : extraction_ok ext = false := by
        cases hx : extraction_ok ext
        · rfl
        · exact absurd hx hok
      simp [List.enumFrom_cons, List.filter_cons, hko]

theorem extract_loop_count (docs : List (String × Option (List Char))) :
    ∀ (i : Nat) (texts : List (List Char)) (labels : List Char) (failed : List String),
      (extract_loop i texts labels failed docs).1.length
        = texts.length + (docs.filter (fun d => extraction_ok d.2)).length := by
  induction docs with
  | nil => intro i texts labels failed; simp [extract_loop]
  | cons d rest ih =>
    intro i texts labels failed
    obtain ⟨name, ext⟩ := d
    by_cases hok : extraction_ok ext = true
    · rw [extract_loop, if_pos hok, ih]
      simp [List.filter_cons, hok]
      omega
    · rw [extract_loop, if_neg hok, ih]
      have hko : extraction_ok ext = false := by
        cases hx : extraction_ok ext
        · rfl
        · exact absurd hx hok
      simp [List.filter_cons, hko]

/-- C8 counterexample: with three input documents of which the first
yields empty text, the job proceeds (two successes) but the successful
documents receive the labels A and B — positions among the successes —
while assignment "by position in the input order" would give the
documents at input indices 1 and 2 the letters B and C.  The claim's
labelling rule fails at this input. -/
theorem compare_contracts_label_shift_counterexample :
    (extract_loop 0 [] [] []
        [("a.pdf", some "".data), ("b.pdf", some "text one".data),
         ("c.pdf", some "text two".data)]).2.1 = ['A', 'B'] ∧
    ((([("a.pdf", some "".data), ("b.pdf", some "text one".data),
        ("c.pdf", some "text two".data)] :
          List (String × Option (List Char))).enum.filter
        (fun p => extraction_ok p.2.2)).map (fun p => Char.ofNat (65 + p.1)))
      = ['B', 'C'] ∧
    (['A', 'B'] : List Char) ≠ ['B', 'C'] := by decide

/-- C8 (amended): in a comparison job over 2–10 documents, labels are
assigned as consecutive uppercase letters A, B, C, … to the successfully
extracted documents in input order (so they equal the input-position
letters exactly when no extraction fails); the recorded failure
identifiers are exactly "Contract {letter-by-input-position}
({filename})" for the failing documents; and when fewer than two
documents yield non-empty text the job fails with those identifiers
enumerated in the error detail, otherwise it proceeds with the texts and
labels. -/
theorem compare_contracts_labels_and_failures
    (docs : List (String × Option (List Char)))
    (_h2 : 2 ≤ docs.length) (_h10 : docs.length ≤ 10) :
    ((extract_loop 0 [] [] [] docs).2.1
        = (List.range (extract_loop 0 [] [] [] docs).1.length).map
            (fun k => Char.ofNat (65 + k)))
    ∧ ((extract_loop 0 [] [] [] docs).2.2
        = (docs.enum.filter (fun p => !extraction_ok p.2.2)).map
            (fun p => extraction_failure_msg p.1 p.2.1))
    ∧ ((extract_loop 0 [] [] [] docs).2.2 = [] →
        (extract_loop 0 [] [] [] docs).1.length = docs.length)
    ∧ ((extract_loop 0 [] [] [] docs).1.length < 2 →
        compare_contracts docs = Except.error
          ("Could not extract text from enough contracts. Failed: "
            ++ String.intercalate ", " (extract_loop 0 [] [] [] docs).2.2))
    ∧ (2 ≤ (extract_loop 0 [] [] [] docs).1.length →
        compare_contracts docs
          = Except.ok ((extract_loop 0 [] [] [] docs).1,
              (extract_loop 0 [] [] [] docs).2.1)) := by
  have hfail := extract_loop_failed docs 0 [] [] []
  have hcount := extract_loop_count docs 0 [] [] []
  have hfail2 : (extract_loop 0 [] [] [] docs).2.2
      = (docs.enum.filter (fun p => !extraction_ok p.2.2)).map
          (fun p => extraction_failure_msg p.1 p.2.1) := by simpa using hfail
  refine ⟨extract_loop_labels docs 0 [] [] [] (by simp), hfail2, ?_, ?_, ?_⟩
  · intro hnof
    rw [hnof] at hfail2
    have hfilter : docs.filter (fun d => extraction_ok d.2) = docs := by
      rw [List.filter_eq_self]
      intro d hd
      by_contra hbad
      have hko : (!extraction_ok d.2) = true := by
        cases hx : extraction_ok d.2
        · rfl
        · exact absurd hx hbad
      rcases List.getElem_of_mem hd with ⟨idx, hidx, hget⟩
      have henum : (idx, d) ∈ docs.enum :=
        List.mk_mem_enum_iff_getElem?.mpr (by rw [List.getElem?_eq_getElem hidx, hget])
      have hin : extraction_failure_msg idx d.1
          ∈ (docs.enum.filter (fun p => !extraction_ok p.2.2)).map
              (fun p => extraction_failure_msg p.1 p.2.1) :=
        List.mem_map.mpr ⟨(idx, d), List.mem_filter.mpr ⟨henum, hko⟩, rfl⟩
      rw [← hfail2] at hin
      simp at hin
    rw [hcount, hfilter]
    simp
  · intro hlt
    rw [compare_contracts, if_pos hlt]
  · intro hge
    rw [compare_contracts, if_neg (by omega)]

/-- Witness for the amended C8: two documents, both extracting
successfully, are labelled A and B and the job proceeds. -/
theorem compare_contracts_labels_and_failures_witness :
    2 ≤ ([("a.pdf", some "alpha".data), ("b.pdf", some "beta".data)] :
        List (String × Option (List Char))).length ∧
    ([("a.pdf", some "alpha".data), ("b.pdf", some "beta".data)] :
        List (String × Option (List Char))).length ≤ 10 ∧
    compare_contracts [("a.pdf", some "alpha".data), ("b.pdf", some "beta".data)]
      = Except.ok (["alpha".data, "beta".data], ['A', 'B']) :=
  ⟨by decide, by decide,
    (compare_contracts_labels_and_failures
        [("a.pdf", some "alpha".data), ("b.pdf", some "beta".data)]
        (by decide) (by decide)).2.2.2.2 (by decide)⟩
